import Mathlib

/-!
# Verification of the AI news aggregation pipeline

A shallow embedding of the news filtering, deduplication, relevance-scoring
and digest-formatting pipeline (`utils/filters.py`, `utils/config.py`,
`main.py`), together with theorems settling the specification claims.

Modelling conventions:
* Python strings are modelled as `List Char` (`Text`); `str.lower()` is
  modelled on the ASCII and Cyrillic repertoire the program manipulates.
* Python's substring test `needle in hay` is `isSub`.
* Python `datetime` values are modelled as seconds since the epoch of their
  UTC wall-clock reading together with a timezone-awareness flag; comparing
  a naive with an aware datetime raises `TypeError` in Python, modelled by
  `Except`.
* Python dict access `d.get(k, default)` on optional fields is modelled by
  `Option.getD` with the same default at each use site.
-/

namespace AiNews

/-- Python strings are modelled as lists of characters. -/
abbrev Text := List Char

/-- `str.lower()` on one character, on the ASCII and Cyrillic repertoire
(the only scripts the program's keyword lists and messages use). -/
def pyLowerChar (c : Char) : Char :=
  if 'A' ≤ c ∧ c ≤ 'Z' then Char.ofNat (c.toNat + 32)
  else if 'А' ≤ c ∧ c ≤ 'Я' then Char.ofNat (c.toNat + 32)
  else if c = 'Ё' then 'ё'
  else c

/-- `str.lower()` on a whole string. -/
def pyLower (t : Text) : Text := t.map pyLowerChar

/-- Boolean prefix test (executable). -/
def isPre : Text → Text → Bool
  | [], _ => true
  | _ :: _, [] => false
  | a :: n, b :: h => a == b && isPre n h

/-- Python's substring containment `needle in hay` (executable). -/
def isSub (n : Text) : Text → Bool
  | [] => n == []
  | c :: rest => isPre n (c :: rest) || isSub n rest

/-- Propositional substring containment. -/
def SubOf (n h : Text) : Prop := ∃ p q, h = p ++ n ++ q

theorem isPre_iff : ∀ (n h : Text), isPre n h = true ↔ ∃ q, h = n ++ q := by
  intro n
  induction n with
  | nil => intro h; simp [isPre]
  | cons a n ih =>
    intro h
    cases h with
    | nil => simp [isPre]
    | cons b h =>
      simp only [isPre, Bool.and_eq_true, beq_iff_eq, ih]
      constructor
      · rintro ⟨rfl, q, rfl⟩; exact ⟨q, rfl⟩
      · rintro ⟨q, hq⟩
        cases hq
        exact ⟨rfl, q, rfl⟩

theorem isSub_iff (n : Text) : ∀ (h : Text), isSub n h = true ↔ SubOf n h := by
  intro h
  induction h with
  | nil =>
    simp only [isSub, beq_iff_eq, SubOf]
    constructor
    · rintro rfl; exact ⟨[], [], rfl⟩
    · rintro ⟨p, q, hpq⟩
      rcases List.append_eq_nil.mp hpq.symm with ⟨h1, _⟩
      rcases List.append_eq_nil.mp h1 with ⟨_, h2⟩
      exact h2
  | cons c rest ih =>
    simp only [isSub, Bool.or_eq_true, isPre_iff, ih, SubOf]
    constructor
    · rintro (⟨q, hq⟩ | ⟨p, q, rfl⟩)
      · exact ⟨[], q, by simpa using hq⟩
      · exact ⟨c :: p, q, rfl⟩
    · rintro ⟨p, q, hpq⟩
      cases p with
      | nil => exact Or.inl ⟨q, by rw [List.nil_append] at hpq; exact hpq⟩
      | cons x p =>
        simp only [List.cons_append] at hpq
        injection hpq with h1 h2
        exact Or.inr ⟨p, q, h2⟩

/-- A substring of `h` is a substring of `h ++ e`. -/
theorem SubOf.append_right {n h : Text} (e : Text) (hs : SubOf n h) :
    SubOf n (h ++ e) := by
  rcases hs with ⟨p, q, rfl⟩
  exact ⟨p, q ++ e, by simp⟩

/-- `Config.AI_KEYWORDS` (inclusion keyword list; note that `OpenAI`,
`Anthropic` and `DeepMind` each occur twice in the configured list). -/
def AI_KEYWORDS : List Text :=
  ["AI news".toList, "artificial intelligence".toList, "ChatGPT".toList,
   "OpenAI".toList, "Claude".toList, "Anthropic".toList, "Gemini AI".toList,
   "DeepMind".toList, "Sora".toList, "Stable Diffusion".toList,
   "Midjourney".toList, "Runway AI".toList, "text-to-video".toList,
   "text-to-image".toList, "LLM".toList, "AI".toList, "OpenAI".toList,
   "Anthropic".toList, "Google".toList, "DeepMind".toList,
   "Microsoft".toList, "Meta".toList, "NVIDIA".toList, "Adobe".toList,
   "Stability AI".toList, "Runway".toList, "Jasper AI".toList]

/-- `Config.EXCLUDE_KEYWORDS` (exclusion keyword list). -/
def EXCLUDE_KEYWORDS : List Text :=
  ["paper".toList, "research paper".toList, "dataset".toList,
   "loss function".toList, "training method".toList,
   "backpropagation".toList, "gradient descent".toList,
   "model weights".toList, "benchmark".toList, "arxiv.org".toList]

/-- `NewsFilter.contains_ai_keywords`: true iff the text contains some
inclusion keyword and no exclusion keyword (case-insensitively). -/
def contains_ai_keywords (text : Text) : Bool :=
  if text = [] then false
  else
    let textLower := pyLower text
    let hasAi := AI_KEYWORDS.any fun k => isSub (pyLower k) textLower
    let hasExclude := EXCLUDE_KEYWORDS.any fun k => isSub (pyLower k) textLower
    hasAi && !hasExclude

/-- `NewsFilter.extract_keywords_from_text`: collects, in configured list
order, every inclusion-list entry whose lowercasing is a substring of the
lowercased text. -/
def extract_keywords_from_text (text : Text) : List Text :=
  if text = [] then []
  else
    let textLower := pyLower text
    AI_KEYWORDS.foldl
      (fun acc k => if isSub (pyLower k) textLower then acc ++ [k] else acc) []

/-- A Python `datetime` value: `secs` is seconds since the epoch of its UTC
wall-clock reading, `aware` tells whether it carries a timezone.
`replace(tzinfo=utc)` keeps the wall clock, so it leaves `secs` unchanged and
only sets `aware`; comparison of two values of equal awareness compares
`secs`, while Python raises `TypeError` on mixed awareness. -/
structure PyDateTime where
  secs : Int
  aware : Bool
deriving DecidableEq

/-- `datetime.min` (midnight of year 1, timezone-naive). -/
def pyDatetimeMin : PyDateTime := ⟨-62135596800, false⟩

/-- `NewsFilter.is_recent_news`, with the clock reading `datetime.now(utc)`
passed as the parameter `nowSecs`. Only `None` is falsy (`datetime` objects
are always truthy); a naive timestamp gets `tzinfo=utc` assigned before the
comparison, which leaves its `secs` unchanged. -/
def is_recent_news (publishedDate : Option PyDateTime) (hours : Int)
    (nowSecs : Int) : Bool :=
  match publishedDate with
  | none => false
  | some d => decide (nowSecs - hours * 3600 ≤ d.secs)

/-- Characters of the lower-cased text counted by `re.findall(r'[а-яё]', ·)`. -/
def isCyrLowerChar (c : Char) : Bool := ('а' ≤ c && c ≤ 'я') || c = 'ё'

/-- Characters of the lower-cased text counted by `re.findall(r'[a-z]', ·)`. -/
def isLatLowerChar (c : Char) : Bool := 'a' ≤ c && c ≤ 'z'

/-- The regex word class `\w`, on the ASCII and Cyrillic repertoire the
program manipulates. -/
def isWordChar (c : Char) : Bool :=
  ('a' ≤ c && c ≤ 'z') || ('A' ≤ c && c ≤ 'Z') || ('0' ≤ c && c ≤ '9') ||
  c = '_' || ('а' ≤ c && c ≤ 'я') || ('А' ≤ c && c ≤ 'Я') || c = 'ё' || c = 'Ё'

/-- The regex whitespace class `\s` (also Python's `str.strip` default set). -/
def isPySpace (c : Char) : Bool :=
  c = ' ' || c = '\t' || c = '\n' || c = '\r' || c = Char.ofNat 11 ||
  c = Char.ofNat 12

/-- The fixed punctuation allow-list of the unwanted-character regex
`[^\w\s\-.,!?()\[\]":;@#$%^&*+=<>/\\|`~]` in `is_english_or_russian`. -/
def ALLOWED_PUNCT : Text := "-.,!?()[]\":;@#$%^&*+=<>/\\|`~".toList

/-- A character the language filter counts as unwanted: neither a word
character, nor whitespace, nor allow-listed punctuation. -/
def isUnwantedChar (c : Char) : Bool :=
  !(isWordChar c || isPySpace c || ALLOWED_PUNCT.contains c)

/-- `NewsFilter.is_english_or_russian`. The source also computes a
`total_chars` count that it never uses; it is omitted here. The float ratio
tests `cyrillic_count / total_letters > 0.8` are modelled exactly as
`5 * count > 4 * total`, which agrees with the double-precision comparison
for every feasible text length. -/
def is_english_or_russian (text : Text) : Bool :=
  if text = [] then false
  else
    let lowered := pyLower text
    let cyrillicCount := (lowered.filter isCyrLowerChar).length
    let latinCount := (lowered.filter isLatLowerChar).length
    let unwantedChars := (text.filter isUnwantedChar).length
    let totalLetters := cyrillicCount + latinCount
    if totalLetters = 0 then false
    else if 0 < unwantedChars then false
    else
      decide (3 ≤ totalLetters) &&
        (decide (4 * totalLetters < 5 * cyrillicCount) ||
         decide (4 * totalLetters < 5 * latinCount))

/-- The `high_priority` keyword list local to `calculate_relevance_score`. -/
def HIGH_PRIORITY : List Text :=
  ["chatgpt".toList, "openai".toList, "claude".toList, "gemini".toList,
   "sora".toList, "gpt-4".toList, "gpt-5".toList]

/-- The `medium_priority` keyword list local to `calculate_relevance_score`. -/
def MEDIUM_PRIORITY : List Text :=
  ["ai".toList, "artificial intelligence".toList, "stable diffusion".toList,
   "midjourney".toList]

/-- The `low_priority` keyword list local to `calculate_relevance_score`. -/
def LOW_PRIORITY : List Text :=
  ["machine learning".toList, "deep learning".toList, "neural network".toList]

/-- One tier loop of `calculate_relevance_score`: add `weight` to the running
score for every tier keyword occurring in the combined text. -/
def addTierScore (weight : Int) (text : Text) (tier : List Text) (s : Int) :
    Int :=
  tier.foldl (fun acc k => if isSub k text then acc + weight else acc) s

/-- `NewsFilter.calculate_relevance_score`. The `keywords` parameter models
the Python default `None` and the empty list together as `[]`, both being
falsy at the single `if keywords:` use site. -/
def calculate_relevance_score (title description : Text)
    (keywords : List Text) : Int :=
  if title = [] then 0
  else
    let text := pyLower (title ++ [' '] ++ description)
    let s1 := addTierScore 20 text HIGH_PRIORITY 0
    let s2 := addTierScore 10 text MEDIUM_PRIORITY s1
    let s3 := addTierScore 5 text LOW_PRIORITY s2
    let s4 :=
      if keywords ≠ [] then s3 + min ((keywords.length : Int) * 5) 20 else s3
    min s4 100

/-- The canonical news record. String-valued dict keys are modelled as
`Option` fields, `none` meaning the key is absent; each consumer applies the
same default its `dict.get` call uses. For `published_date` the inner
`Option` distinguishes an explicit `None` (`some none`) from a timestamp. -/
structure NewsItem where
  title : Option Text := none
  url : Option Text := none
  source : Option Text := none
  description : Option Text := none
  keywords : Option (List Text) := none
  content_type : Option Text := none
  duration : Option Nat := none
  relevance_score : Option Int := none
  published_date : Option (Option PyDateTime) := none
deriving DecidableEq

/-- Python's `str.strip()`: drop leading and trailing whitespace. -/
def pyStrip (t : Text) : Text :=
  ((t.dropWhile isPySpace).reverse.dropWhile isPySpace).reverse

/-- The title dedup key: `news.get('title', '').lower().strip()`. -/
def dedupKeyTitle (n : NewsItem) : Text := pyStrip (pyLower (n.title.getD []))

/-- The URL dedup key: `news.get('url', '')`, unmodified. -/
def dedupKeyUrl (n : NewsItem) : Text := n.url.getD []

/-- The loop of `NewsFilter.remove_duplicates`, with the two seen-sets
modelled as lists queried by membership. -/
def removeDupAux (seenTitles seenUrls : List Text) :
    List NewsItem → List NewsItem
  | [] => []
  | n :: rest =>
    if dedupKeyTitle n ∉ seenTitles ∧ dedupKeyUrl n ∉ seenUrls then
      n :: removeDupAux (dedupKeyTitle n :: seenTitles)
        (dedupKeyUrl n :: seenUrls) rest
    else
      removeDupAux seenTitles seenUrls rest

/-- `NewsFilter.remove_duplicates`. -/
def remove_duplicates (l : List NewsItem) : List NewsItem := removeDupAux [] [] l

/-- The loop body of `NewsFilter.filter_news_by_relevance`: drop the item
when its title fails the language filter, otherwise score it and keep it
(with `relevance_score` assigned) iff the score reaches `minScore`. -/
def relevanceStep (minScore : Int) (news : NewsItem) : Option NewsItem :=
  let title := news.title.getD []
  let description := news.description.getD []
  let keywords := news.keywords.getD []
  if is_english_or_russian title = false then none
  else
    let score := calculate_relevance_score title description keywords
    if minScore ≤ score then some { news with relevance_score := some score }
    else none

/-- The sort key `x.get('relevance_score', 0)`. -/
def scoreKey (n : NewsItem) : Int := n.relevance_score.getD 0

/-- The descending order relation of `filtered_news.sort(key=..., reverse=True)`:
`a` may precede `b` iff `b`'s score does not exceed `a`'s. -/
def scoreGE (a b : NewsItem) : Prop := scoreKey b ≤ scoreKey a

instance : DecidableRel scoreGE := fun a b =>
  inferInstanceAs (Decidable (scoreKey b ≤ scoreKey a))

instance : IsTotal NewsItem scoreGE :=
  ⟨fun a b => le_total (scoreKey b) (scoreKey a)⟩

instance : IsTrans NewsItem scoreGE :=
  ⟨fun _ _ _ h1 h2 => le_trans h2 h1⟩

/-- `NewsFilter.filter_news_by_relevance`. Python's `list.sort` is a stable
sort; a stable sort by a key is extensionally unique, and is modelled by the
stable `List.insertionSort` with the non-strict descending relation. -/
def filter_news_by_relevance (l : List NewsItem) (minScore : Int) :
    List NewsItem :=
  List.insertionSort scoreGE (l.filterMap (relevanceStep minScore))

/-- The ASCII apostrophe, written by code point to keep source text plain. -/
def apos : Char := Char.ofNat 39

/-- Decimal rendering of a number interpolated by an f-string. -/
def natText (n : Nat) : Text := (toString n).toList

/-- The fixed no-news message of `format_news_for_telegram`. -/
def NO_NEWS_MESSAGE : Text :=
  "📰 *AI News Digest*\n\nНовостей не найдено за последние 24 часа.".toList

/-- The constant part of the digest header preceding the current date. -/
def DIGEST_HEADER_PREFIX : Text := "📰 <b>AI News Digest — ".toList

/-- The Reddit `emoji_map` lookup with its `'📄'` default. -/
def contentEmoji (ct : Text) : Text :=
  if ct = "image".toList then "🖼️".toList
  else if ct = "video".toList then "🎥".toList
  else if ct = "text".toList then "📝".toList
  else if ct = "link".toList then "🔗".toList
  else "📄".toList

/-- One item block of `format_news_for_telegram`. -/
def formatNewsItem (news : NewsItem) : Text :=
  let title := news.title.getD "Без заголовка".toList
  let url := news.url.getD "#".toList
  let source := news.source.getD "Неизвестный источник".toList
  let contentType := news.content_type.getD []
  let duration := news.duration.getD 0
  let contentEmojiStr :=
    if isSub "Reddit".toList source ∧ contentType ≠ [] then
      contentEmoji contentType
    else []
  let durationInfo :=
    if isSub "YouTube".toList source ∧ 0 < duration then
      let minutes := duration / 60
      let seconds := duration % 60
      if 0 < minutes then
        " (".toList ++ natText minutes ++ "м ".toList ++ natText seconds ++
          "с)".toList
      else " (".toList ++ natText seconds ++ "с)".toList
    else []
  if contentEmojiStr ≠ [] then
    "🔹 ".toList ++ contentEmojiStr ++ " <a href=".toList ++ [apos] ++ url ++
      [apos] ++ ">".toList ++ title ++ "</a>".toList ++ durationInfo ++
      "\nИсточник: ".toList ++ source
  else
    "🔹 <a href=".toList ++ [apos] ++ url ++ [apos] ++ ">".toList ++ title ++
      "</a>".toList ++ durationInfo ++ "\nИсточник: ".toList ++ source

/-- `NewsFilter.format_news_for_telegram`, with the formatted current UTC
date passed as the parameter `currentDate`. -/
def format_news_for_telegram (newsList : List NewsItem) (maxItems : Nat)
    (currentDate : Text) : Text :=
  if newsList = [] then NO_NEWS_MESSAGE
  else
    let truncated := newsList.take maxItems
    let header := DIGEST_HEADER_PREFIX ++ currentDate ++ "</b>\n\n".toList
    header ++ List.intercalate "\n".toList (truncated.map formatNewsItem)

/-- The date-sort key `x.get('published_date', datetime.min)`: `none` models
a dict value that is Python `None`. -/
def dateKey (n : NewsItem) : Option PyDateTime :=
  match n.published_date with
  | none => some pyDatetimeMin
  | some v => v

/-- Python's `<` on date-sort keys: raises `TypeError` when `None` is
involved or when a naive and an aware datetime meet. -/
def pyLtDateKey (a b : Option PyDateTime) : Except String Bool :=
  match a, b with
  | some x, some y =>
    if x.aware = y.aware then Except.ok (decide (x.secs < y.secs))
    else
      Except.error
        "TypeError: cannot compare offset-naive and offset-aware datetimes"
  | _, _ => Except.error "TypeError: NoneType is not orderable"

/-- Stable descending insertion in the `Except` monad: `x` goes before the
first `y` whose key is not above `x`'s, and any raising comparison aborts the
sort exactly as Python's `list.sort` propagates `TypeError`. -/
def orderedInsertDateM (x : NewsItem) :
    List NewsItem → Except String (List NewsItem)
  | [] => Except.ok [x]
  | y :: l => do
    let b ← pyLtDateKey (dateKey x) (dateKey y)
    if b then
      let r ← orderedInsertDateM x l
      Except.ok (y :: r)
    else Except.ok (x :: y :: l)

/-- The secondary sort of `process_news`:
`relevant_news.sort(key=lambda x: x.get('published_date', datetime.min), reverse=True)`,
modelled as a stable insertion sort whose comparisons may raise. -/
def sortByDateM : List NewsItem → Except String (List NewsItem)
  | [] => Except.ok []
  | x :: l => do
    let r ← sortByDateM l
    orderedInsertDateM x r

/-- `AINewsAggregator.process_news`: dedup, relevance filter at threshold 10,
then the secondary sort by publication date. -/
def process_news (l : List NewsItem) : Except String (List NewsItem) :=
  let uniqueNews := remove_duplicates l
  let relevantNews := filter_news_by_relevance uniqueNews 10
  sortByDateM relevantNews

/-- A concrete item: aware timestamp, relevant English title. -/
def c2ItemAware : NewsItem :=
  { title := some "ChatGPT news".toList, url := some "https://a".toList,
    published_date := some (some ⟨1700000000, true⟩) }

/-- A concrete item with no `published_date` key at all. -/
def c2ItemNoDate : NewsItem :=
  { title := some "OpenAI model".toList, url := some "https://b".toList }

/-- A concrete item for the dedup scenario. -/
def dupItemA : NewsItem :=
  { title := some "OpenAI launches GPT-5".toList,
    url := some "https://a".toList }

/-- A concrete item whose normalized title collides with `dupItemA`. -/
def dupItemB : NewsItem :=
  { title := some "openai launches gpt-5".toList,
    url := some "https://b".toList }

/-! ## Helper lemmas -/

theorem SubOf_nil {n : Text} (h : SubOf n []) : n = [] := by
  rcases h with ⟨p, q, hpq⟩
  rcases List.append_eq_nil.mp hpq.symm with ⟨h1, _⟩
  rcases List.append_eq_nil.mp h1 with ⟨_, h2⟩
  exact h2

theorem any_isSub_iff (ks : List Text) (t : Text) :
    (ks.any fun k => isSub (pyLower k) t) = true ↔
      ∃ k ∈ ks, SubOf (pyLower k) t := by
  simp [List.any_eq_true, isSub_iff]

theorem foldl_append_filter (p : Text → Bool) (l : List Text) :
    ∀ acc : List Text,
      l.foldl (fun acc k => if p k then acc ++ [k] else acc) acc =
        acc ++ l.filter p := by
  induction l with
  | nil => intro acc; simp
  | cons x xs ih =>
    intro acc
    by_cases h : p x = true
    · simp [List.foldl_cons, h, ih, List.filter_cons]
    · simp [List.foldl_cons, h, ih, List.filter_cons]

theorem count_filter_eq (p : Text → Bool) (k : Text) (l : List Text) :
    (l.filter p).count k = if p k then l.count k else 0 := by
  induction l with
  | nil => simp
  | cons x xs ih =>
    by_cases hx : p x = true
    · rw [List.filter_cons_of_pos hx]
      by_cases hk : x = k
      · subst hk
        simp [List.count_cons_self, ih, hx]
      · rw [List.count_cons_of_ne (by exact fun h => hk h.symm),
          List.count_cons_of_ne (by exact fun h => hk h.symm), ih]
    · rw [List.filter_cons_of_neg (by simpa using hx)]
      by_cases hk : x = k
      · subst hk
        simp [ih, hx, List.count_cons_self]
      · rw [List.count_cons_of_ne (by exact fun h => hk h.symm), ih]

/-! ## Claim theorems -/

/-- C5: `is_recent_news` returns false for a null timestamp, and otherwise
returns true iff the timestamp is at least `now - hours` (in seconds),
whether the timestamp is aware or naive; the bound is inclusive, one second
earlier is not recent, and every future timestamp is recent. -/
theorem C5_is_recent_boundary (nowSecs hours : Int) (d : PyDateTime) :
    is_recent_news none hours nowSecs = false ∧
    (is_recent_news (some d) hours nowSecs = true ↔
      nowSecs - hours * 3600 ≤ d.secs) ∧
    (∀ b : Bool,
      is_recent_news (some ⟨nowSecs - hours * 3600, b⟩) hours nowSecs = true) ∧
    (∀ b : Bool,
      is_recent_news (some ⟨nowSecs - hours * 3600 - 1, b⟩) hours nowSecs
        = false) ∧
    (0 ≤ hours → nowSecs ≤ d.secs →
      is_recent_news (some d) hours nowSecs = true) := by
  refine ⟨rfl, by simp [is_recent_news], ?_, ?_, ?_⟩
  · intro b; simp [is_recent_news]
  · intro b; simp [is_recent_news]
  · intro h1 h2
    simp only [is_recent_news, decide_eq_true_eq]
    nlinarith

theorem C5_is_recent_boundary_witness :
    0 ≤ (24 : Int) ∧ (100 : Int) ≤ (500 : Int) ∧
      is_recent_news (some ⟨500, true⟩) 24 100 = true :=
  ⟨by decide, by decide,
    (C5_is_recent_boundary 100 24 ⟨500, true⟩).2.2.2.2 (by decide) (by decide)⟩

/-- C6: `contains_ai_keywords` is true iff some inclusion keyword occurs
case-insensitively in the text and no exclusion keyword does; it is false
for empty text, and false whenever any exclusion keyword is present. -/
theorem C6_contains_topic_keywords (text : Text) :
    (contains_ai_keywords text = true ↔
      ((∃ k ∈ AI_KEYWORDS, SubOf (pyLower k) (pyLower text)) ∧
        ∀ e ∈ EXCLUDE_KEYWORDS, ¬ SubOf (pyLower e) (pyLower text))) ∧
    contains_ai_keywords [] = false ∧
    (∀ e ∈ EXCLUDE_KEYWORDS, SubOf (pyLower e) (pyLower text) →
      contains_ai_keywords text = false) := by
  have hiff : contains_ai_keywords text = true ↔
      ((∃ k ∈ AI_KEYWORDS, SubOf (pyLower k) (pyLower text)) ∧
        ∀ e ∈ EXCLUDE_KEYWORDS, ¬ SubOf (pyLower e) (pyLower text)) := by
    by_cases h : text = []
    · subst h
      constructor
      · intro hf
        exact absurd hf (by decide)
      · rintro ⟨⟨k, hk, hsub⟩, -⟩
        have hnil : pyLower k = [] := SubOf_nil (by simpa [pyLower] using hsub)
        have hne : ∀ k ∈ AI_KEYWORDS, pyLower k ≠ [] := by decide
        exact absurd hnil (hne k hk)
    · rw [contains_ai_keywords, if_neg h]
      simp only [Bool.and_eq_true, Bool.not_eq_true', any_isSub_iff,
        ← Bool.not_eq_true, any_isSub_iff, not_exists, not_and]
  refine ⟨hiff, rfl, fun e he hs => ?_⟩
  rw [← Bool.not_eq_true] at *
  intro hc
  exact (hiff.mp hc).2 e he hs

theorem C6_contains_topic_keywords_witness :
    (("paper".toList : Text) ∈ EXCLUDE_KEYWORDS) ∧
    SubOf (pyLower "paper".toList)
      (pyLower "OpenAI research paper on gradient descent".toList) ∧
    contains_ai_keywords "OpenAI research paper on gradient descent".toList
      = false :=
  ⟨by decide, (isSub_iff _ _).mp (by decide),
    (C6_contains_topic_keywords
        "OpenAI research paper on gradient descent".toList).2.2
      "paper".toList (by decide) ((isSub_iff _ _).mp (by decide))⟩

/-- C3 counterexample: the text `"OpenAI"` matches the inclusion keyword
`OpenAI`, yet `extract_keywords_from_text` reports it twice (the configured
list contains the entry `OpenAI` twice), refuting "each matching keyword
reported exactly once". -/
theorem C3_extract_keywords_counterexample :
    extract_keywords_from_text "OpenAI".toList =
      ["OpenAI".toList, "AI".toList, "OpenAI".toList] ∧
    (("OpenAI".toList : Text) ∈ AI_KEYWORDS) ∧
    (extract_keywords_from_text "OpenAI".toList).count "OpenAI".toList = 2 := by
  refine ⟨by decide, by decide, by decide⟩

/-- C3 amended: `extract_keywords_from_text` returns exactly the entries of
the configured inclusion list that occur case-insensitively in the text, in
configured-list order, each reported once per configured-list entry (the
list itself holds `OpenAI`, `Anthropic` and `DeepMind` twice) independently
of how often it occurs in the text; empty text yields the empty list. -/
theorem C3_extract_keywords_amended (text : Text) :
    extract_keywords_from_text text =
      AI_KEYWORDS.filter (fun k => isSub (pyLower k) (pyLower text)) ∧
    (∀ k : Text, (extract_keywords_from_text text).count k =
      if isSub (pyLower k) (pyLower text) then AI_KEYWORDS.count k else 0) ∧
    extract_keywords_from_text [] = [] := by
  have hmain : extract_keywords_from_text text =
      AI_KEYWORDS.filter (fun k => isSub (pyLower k) (pyLower text)) := by
    by_cases h : text = []
    · subst h
      rw [show extract_keywords_from_text [] = [] from rfl]
      exact (by decide :
        ([] : List Text) =
          AI_KEYWORDS.filter (fun k => isSub (pyLower k) (pyLower [])))
    · rw [extract_keywords_from_text, if_neg h]
      exact foldl_append_filter _ AI_KEYWORDS []
  refine ⟨hmain, fun k => ?_, rfl⟩
  rw [hmain, count_filter_eq]

theorem relevanceStep_none_of_lang (m : Int) (n : NewsItem)
    (h : is_english_or_russian (n.title.getD []) = false) :
    relevanceStep m n = none := by
  simp [relevanceStep, h]

theorem relevanceStep_title (m : Int) {x y : NewsItem}
    (h : relevanceStep m x = some y) : y.title = x.title := by
  simp only [relevanceStep] at h
  split at h
  · exact absurd h (by simp)
  · split at h
    · cases h; rfl
    · exact absurd h (by simp)

theorem mem_filter_news_iff (l : List NewsItem) (m : Int) (y : NewsItem) :
    y ∈ filter_news_by_relevance l m ↔
      ∃ x ∈ l, relevanceStep m x = some y := by
  rw [filter_news_by_relevance, List.mem_insertionSort, List.mem_filterMap]

theorem apostrophe_lang_false {text : Text} (h : apos ∈ text) :
    is_english_or_russian text = false := by
  have hne : text ≠ [] := by rintro rfl; simp at h
  have hcount : 0 < (text.filter isUnwantedChar).length := by
    have hm : apos ∈ text.filter isUnwantedChar :=
      List.mem_filter.mpr ⟨h, by decide⟩
    exact List.length_pos.mpr (List.ne_nil_of_mem hm)
  rw [is_english_or_russian, if_neg hne]
  dsimp only
  by_cases htot : ((pyLower text).filter isCyrLowerChar).length +
      ((pyLower text).filter isLatLowerChar).length = 0
  · rw [if_pos htot]
  · rw [if_neg htot, if_pos hcount]

/-- C10: a text containing an ASCII apostrophe always fails the language
filter (the apostrophe is neither a word character, whitespace, nor
allow-listed punctuation, so it counts as unwanted), and consequently an
item whose title contains an apostrophe is dropped by
`filter_news_by_relevance` regardless of score: its loop step yields
nothing and no surviving item's title contains an apostrophe. -/
theorem C10_apostrophe_is_dropped (text : Text) (l : List NewsItem) (m : Int) :
    (apos ∈ text → is_english_or_russian text = false) ∧
    (∀ n : NewsItem, apos ∈ n.title.getD [] → relevanceStep m n = none) ∧
    (∀ y ∈ filter_news_by_relevance l m, apos ∉ y.title.getD []) := by
  refine ⟨fun h => apostrophe_lang_false h,
    fun n h => relevanceStep_none_of_lang m n (apostrophe_lang_false h),
    fun y hy hmem => ?_⟩
  rcases (mem_filter_news_iff l m y).mp hy with ⟨x, hx, hstep⟩
  have ht : y.title = x.title := relevanceStep_title m hstep
  have hx' : apos ∈ x.title.getD [] := by rw [← ht]; exact hmem
  rw [relevanceStep_none_of_lang m x (apostrophe_lang_false hx')] at hstep
  exact absurd hstep (by simp)

theorem C10_apostrophe_is_dropped_witness :
    apos ∈ ("OpenAI".toList ++ [apos] ++ "s new model".toList) ∧
    is_english_or_russian ("OpenAI".toList ++ [apos] ++ "s new model".toList)
      = false :=
  ⟨by decide,
    (C10_apostrophe_is_dropped
      ("OpenAI".toList ++ [apos] ++ "s new model".toList) [] 0).1 (by decide)⟩

theorem addTierScore_cons (w : Int) (t k : Text) (ks : List Text) (s : Int) :
    addTierScore w t (k :: ks) s =
      addTierScore w t ks (if isSub k t then s + w else s) := rfl

theorem addTierScore_eq (w : Int) (t : Text) (tier : List Text) :
    ∀ s : Int, addTierScore w t tier s =
      s + w * ((tier.filter fun k => isSub k t).length : Int) := by
  induction tier with
  | nil => intro s; simp [addTierScore]
  | cons k ks ih =>
    intro s
    rw [addTierScore_cons]
    by_cases h : isSub k t = true
    · rw [if_pos h, ih (s + w)]
      simp only [List.filter_cons, h, ite_true, List.length_cons]
      push_cast
      ring
    · have h' : isSub k t = false := by simpa using h
      rw [if_neg h, ih s]
      simp [List.filter_cons, h']

/-- The score as a closed formula: a weight of 20/10/5 per matching
high/medium/low tier keyword, the keyword-list bonus, clamped at 100. -/
theorem calculate_relevance_score_eq (title description : Text)
    (keywords : List Text) :
    calculate_relevance_score title description keywords =
      if title = [] then 0
      else
        min
          (20 * ((HIGH_PRIORITY.filter fun k =>
              isSub k (pyLower (title ++ [' '] ++ description))).length : Int) +
            10 * ((MEDIUM_PRIORITY.filter fun k =>
              isSub k (pyLower (title ++ [' '] ++ description))).length : Int) +
            5 * ((LOW_PRIORITY.filter fun k =>
              isSub k (pyLower (title ++ [' '] ++ description))).length : Int) +
            (if keywords ≠ [] then min ((keywords.length : Int) * 5) 20 else 0))
          100 := by
  by_cases h : title = []
  · simp [calculate_relevance_score, h]
  · rw [if_neg h]
    simp only [calculate_relevance_score]
    rw [if_neg h]
    rw [addTierScore_eq, addTierScore_eq, addTierScore_eq]
    by_cases hk : keywords = []
    · subst hk
      rw [if_neg (by simp), if_neg (by simp)]
      congr 1
      ring
    · rw [if_pos hk, if_pos hk]
      congr 1
      ring

/-- C7: the relevance score is an integer in `[0, 100]`: empty title scores
0, each present high/medium/low-priority keyword adds 20/10/5, the keyword
bonus is `min (5 * len) 20`, and the total is clamped at 100, with no
negative term. -/
theorem C7_score_bounds (title description : Text) (keywords : List Text) :
    0 ≤ calculate_relevance_score title description keywords ∧
    calculate_relevance_score title description keywords ≤ 100 ∧
    calculate_relevance_score [] description keywords = 0 ∧
    calculate_relevance_score title description keywords =
      (if title = [] then 0
       else
        min
          (20 * ((HIGH_PRIORITY.filter fun k =>
              isSub k (pyLower (title ++ [' '] ++ description))).length : Int) +
            10 * ((MEDIUM_PRIORITY.filter fun k =>
              isSub k (pyLower (title ++ [' '] ++ description))).length : Int) +
            5 * ((LOW_PRIORITY.filter fun k =>
              isSub k (pyLower (title ++ [' '] ++ description))).length : Int) +
            (if keywords ≠ [] then min ((keywords.length : Int) * 5) 20 else 0))
          100) := by
  have heq := calculate_relevance_score_eq title description keywords
  have hbonus :
      0 ≤ (if keywords ≠ [] then min ((keywords.length : Int) * 5) 20 else 0) := by
    split
    · exact le_min (by positivity) (by norm_num)
    · exact le_refl 0
  refine ⟨?_, ?_, by simp [calculate_relevance_score], heq⟩
  · rw [heq]
    split
    · exact le_refl 0
    · refine le_min ?_ (by norm_num)
      have h1 : (0 : Int) ≤ 20 * ((HIGH_PRIORITY.filter fun k =>
          isSub k (pyLower (title ++ [' '] ++ description))).length : Int) := by
        positivity
      have h2 : (0 : Int) ≤ 10 * ((MEDIUM_PRIORITY.filter fun k =>
          isSub k (pyLower (title ++ [' '] ++ description))).length : Int) := by
        positivity
      have h3 : (0 : Int) ≤ 5 * ((LOW_PRIORITY.filter fun k =>
          isSub k (pyLower (title ++ [' '] ++ description))).length : Int) := by
        positivity
      linarith
  · rw [heq]
    split
    · norm_num
    · exact min_le_right _ _

theorem score_mono_append (title description e : Text) (keywords : List Text) :
    calculate_relevance_score title description keywords ≤
      calculate_relevance_score title (description ++ e) keywords := by
  rw [calculate_relevance_score_eq, calculate_relevance_score_eq]
  by_cases h : title = []
  · simp [h]
  · rw [if_neg h, if_neg h]
    have htext : pyLower (title ++ [' '] ++ (description ++ e)) =
        pyLower (title ++ [' '] ++ description) ++ pyLower e := by
      simp [pyLower, List.append_assoc]
    have mono : ∀ tier : List Text,
        ((tier.filter fun k =>
            isSub k (pyLower (title ++ [' '] ++ description))).length : Int) ≤
          ((tier.filter fun k =>
            isSub k (pyLower (title ++ [' '] ++ (description ++ e)))).length :
              Int) := by
      intro tier
      have hsub : ∀ k : Text,
          isSub k (pyLower (title ++ [' '] ++ description)) = true →
            isSub k (pyLower (title ++ [' '] ++ (description ++ e))) = true := by
        intro k hk
        rw [htext]
        exact (isSub_iff _ _).mpr (((isSub_iff _ _).mp hk).append_right _)
      exact_mod_cast (List.monotone_filter_right _ hsub).length_le
    refine min_le_min ?_ (le_refl 100)
    have h1 := mono HIGH_PRIORITY
    have h2 := mono MEDIUM_PRIORITY
    have h3 := mono LOW_PRIORITY
    linarith

/-- C9: appending a high-priority keyword occurrence at the end of the text
(the end of the description) never decreases the relevance score: substring
matches present in the original combined text are preserved by appending. -/
theorem C9_score_monotone (title description : Text) (keywords : List Text)
    (k : Text) (_hk : k ∈ HIGH_PRIORITY) :
    calculate_relevance_score title description keywords ≤
      calculate_relevance_score title (description ++ k) keywords :=
  score_mono_append title description k keywords

theorem C9_score_monotone_witness :
    ("chatgpt".toList : Text) ∈ HIGH_PRIORITY ∧
    calculate_relevance_score "AI update".toList [] [] ≤
      calculate_relevance_score "AI update".toList ([] ++ "chatgpt".toList)
        [] :=
  ⟨by decide, C9_score_monotone "AI update".toList [] [] "chatgpt".toList
    (by decide)⟩

theorem removeDupAux_cons (st su : List Text) (n : NewsItem)
    (rest : List NewsItem) :
    removeDupAux st su (n :: rest) =
      if dedupKeyTitle n ∉ st ∧ dedupKeyUrl n ∉ su then
        n :: removeDupAux (dedupKeyTitle n :: st) (dedupKeyUrl n :: su) rest
      else removeDupAux st su rest := rfl

theorem removeDupAux_sublist :
    ∀ (l : List NewsItem) (st su : List Text),
      (removeDupAux st su l).Sublist l := by
  intro l
  induction l with
  | nil => intro st su; simp [removeDupAux]
  | cons n rest ih =>
    intro st su
    rw [removeDupAux_cons]
    split
    · exact (ih _ _).cons₂ n
    · exact (ih _ _).cons n

theorem removeDupAux_inv :
    ∀ (l : List NewsItem) (st su : List Text),
      ((removeDupAux st su l).map dedupKeyTitle).Nodup ∧
      ((removeDupAux st su l).map dedupKeyUrl).Nodup ∧
      ∀ y ∈ removeDupAux st su l,
        dedupKeyTitle y ∉ st ∧ dedupKeyUrl y ∉ su := by
  intro l
  induction l with
  | nil => intro st su; simp [removeDupAux]
  | cons n rest ih =>
    intro st su
    rw [removeDupAux_cons]
    by_cases h : dedupKeyTitle n ∉ st ∧ dedupKeyUrl n ∉ su
    · rw [if_pos h]
      obtain ⟨ht, hu, hfresh⟩ := ih (dedupKeyTitle n :: st) (dedupKeyUrl n :: su)
      refine ⟨?_, ?_, ?_⟩
      · rw [List.map_cons, List.nodup_cons]
        refine ⟨fun hmem => ?_, ht⟩
        rcases List.mem_map.mp hmem with ⟨y, hy, hkey⟩
        exact (hfresh y hy).1 (by rw [hkey]; exact List.mem_cons_self _ _)
      · rw [List.map_cons, List.nodup_cons]
        refine ⟨fun hmem => ?_, hu⟩
        rcases List.mem_map.mp hmem with ⟨y, hy, hkey⟩
        exact (hfresh y hy).2 (by rw [hkey]; exact List.mem_cons_self _ _)
      · intro y hy
        rcases List.mem_cons.mp hy with rfl | hy'
        · exact h
        · have hf := hfresh y hy'
          exact ⟨fun hc => hf.1 (List.mem_cons_of_mem _ hc),
            fun hc => hf.2 (List.mem_cons_of_mem _ hc)⟩
    · rw [if_neg h]
      exact ih st su

theorem removeDupAux_cover :
    ∀ (l : List NewsItem) (st su : List Text), ∀ x ∈ l,
      dedupKeyTitle x ∈ st ∨ dedupKeyUrl x ∈ su ∨
        ∃ y ∈ removeDupAux st su l,
          dedupKeyTitle y = dedupKeyTitle x ∨ dedupKeyUrl y = dedupKeyUrl x := by
  intro l
  induction l with
  | nil => intro st su x hx; simp at hx
  | cons n rest ih =>
    intro st su x hx
    rw [removeDupAux_cons]
    by_cases h : dedupKeyTitle n ∉ st ∧ dedupKeyUrl n ∉ su
    · rw [if_pos h]
      rcases List.mem_cons.mp hx with rfl | hx'
      · exact Or.inr (Or.inr ⟨x, List.mem_cons_self _ _, Or.inl rfl⟩)
      · rcases ih (dedupKeyTitle n :: st) (dedupKeyUrl n :: su) x hx'
          with h1 | h2 | ⟨y, hy, hk⟩
        · rcases List.mem_cons.mp h1 with he | hs
          · exact Or.inr (Or.inr ⟨n, List.mem_cons_self _ _, Or.inl he.symm⟩)
          · exact Or.inl hs
        · rcases List.mem_cons.mp h2 with he | hs
          · exact Or.inr (Or.inr ⟨n, List.mem_cons_self _ _, Or.inr he.symm⟩)
          · exact Or.inr (Or.inl hs)
        · exact Or.inr (Or.inr ⟨y, List.mem_cons_of_mem _ hy, hk⟩)
    · rw [if_neg h]
      rcases List.mem_cons.mp hx with rfl | hx'
      · rcases not_and_or.mp h with h1 | h2
        · exact Or.inl (not_not.mp h1)
        · exact Or.inr (Or.inl (not_not.mp h2))
      · exact ih st su x hx'

/-- C4: dedup is order-preserving (a sublist of the input); among kept items
both the normalized-title keys and the URL keys are pairwise distinct; every
input item shares a key with some kept item; the first item is always kept;
and the claimed two-item consequences hold: identical normalized titles with
different URLs keep only the first, identical URLs keep only the first, and
a second empty-URL item is dropped even when titles differ. -/
theorem C4_dedupe (l : List NewsItem) :
    (remove_duplicates l).Sublist l ∧
    ((remove_duplicates l).map dedupKeyTitle).Nodup ∧
    ((remove_duplicates l).map dedupKeyUrl).Nodup ∧
    (∀ x ∈ l, ∃ y ∈ remove_duplicates l,
      dedupKeyTitle y = dedupKeyTitle x ∨ dedupKeyUrl y = dedupKeyUrl x) ∧
    (∀ (x : NewsItem) (rest : List NewsItem),
      remove_duplicates (x :: rest) =
        x :: removeDupAux [dedupKeyTitle x] [dedupKeyUrl x] rest) ∧
    (∀ x y : NewsItem, dedupKeyTitle x = dedupKeyTitle y →
      remove_duplicates [x, y] = [x]) ∧
    (∀ x y : NewsItem, dedupKeyUrl x = dedupKeyUrl y →
      remove_duplicates [x, y] = [x]) ∧
    (∀ x y : NewsItem, dedupKeyUrl x = [] → dedupKeyUrl y = [] →
      remove_duplicates [x, y] = [x]) := by
  obtain ⟨ht, hu, -⟩ := removeDupAux_inv l [] []
  have hpairT : ∀ x y : NewsItem, dedupKeyTitle x = dedupKeyTitle y →
      remove_duplicates [x, y] = [x] := by
    intro x y hxy
    rw [remove_duplicates, removeDupAux_cons, if_pos (by simp),
      removeDupAux_cons,
      if_neg (fun hc => hc.1 (List.mem_singleton.mpr hxy.symm))]
    rfl
  have hpairU : ∀ x y : NewsItem, dedupKeyUrl x = dedupKeyUrl y →
      remove_duplicates [x, y] = [x] := by
    intro x y hxy
    rw [remove_duplicates, removeDupAux_cons, if_pos (by simp),
      removeDupAux_cons,
      if_neg (fun hc => hc.2 (List.mem_singleton.mpr hxy.symm))]
    rfl
  refine ⟨removeDupAux_sublist l [] [], ht, hu, ?_,
    fun x rest => by
      rw [remove_duplicates, removeDupAux_cons, if_pos (by simp)],
    hpairT, hpairU, fun x y hx hy => hpairU x y (hx.trans hy.symm)⟩
  intro x hx
  rcases removeDupAux_cover l [] [] x hx with h1 | h2 | h3
  · simp at h1
  · simp at h2
  · exact h3

theorem C4_dedupe_witness :
    dedupKeyTitle dupItemA = dedupKeyTitle dupItemB ∧
    remove_duplicates [dupItemA, dupItemB] = [dupItemA] :=
  ⟨by decide,
    (C4_dedupe [dupItemA, dupItemB]).2.2.2.2.2.1 dupItemA dupItemB (by decide)⟩

theorem filter_orderedInsert (p : NewsItem → Bool)
    (hp : ∀ a b, p a = true → p b = true → scoreGE a b) (a : NewsItem) :
    ∀ ls : List NewsItem, (List.orderedInsert scoreGE a ls).filter p =
      if p a = true then a :: ls.filter p else ls.filter p := by
  intro ls
  induction ls with
  | nil =>
    by_cases hpa : p a = true
    · simp [List.orderedInsert, List.filter_cons, hpa]
    · have hpa' : p a = false := by simpa using hpa
      simp [List.orderedInsert, List.filter_cons, hpa']
  | cons b ls ih =>
    simp only [List.orderedInsert]
    by_cases hab : scoreGE a b
    · rw [if_pos hab]
      by_cases hpa : p a = true
      · simp [List.filter_cons, hpa]
      · have hpa' : p a = false := by simpa using hpa
        simp [List.filter_cons, hpa']
    · rw [if_neg hab]
      by_cases hpb : p b = true
      · have hpa' : p a = false := by
          by_contra hpa
          exact hab (hp a b (by simpa using hpa) hpb)
        simp [List.filter_cons, hpb, ih, hpa']
      · have hpb' : p b = false := by simpa using hpb
        simp [List.filter_cons, hpb', ih]

theorem filter_insertionSort_stable (p : NewsItem → Bool)
    (hp : ∀ a b, p a = true → p b = true → scoreGE a b) :
    ∀ l : List NewsItem,
      (List.insertionSort scoreGE l).filter p = l.filter p := by
  intro l
  induction l with
  | nil => rfl
  | cons a l ih =>
    show (List.orderedInsert scoreGE a (List.insertionSort scoreGE l)).filter p
      = (a :: l).filter p
    rw [filter_orderedInsert p hp a, ih]
    by_cases hpa : p a = true
    · simp [List.filter_cons, hpa]
    · have hpa' : p a = false := by simpa using hpa
      simp [List.filter_cons, hpa']

/-- C8: `filter_news_by_relevance` drops every item whose title fails the
language filter unconditionally; keeps a remaining item iff its computed
score reaches `minScore`, assigning `relevance_score`; and returns the kept
items sorted descending by score, as a permutation of the kept sequence,
with ties preserving the relative input order (the filtered subsequence at
each fixed score value is unchanged). -/
theorem C8_filter_by_relevance (l : List NewsItem) (m : Int) :
    (∀ y : NewsItem, y ∈ filter_news_by_relevance l m ↔
      ∃ x ∈ l, relevanceStep m x = some y) ∧
    (∀ x : NewsItem, is_english_or_russian (x.title.getD []) = false →
      relevanceStep m x = none) ∧
    (∀ x : NewsItem, relevanceStep m x ≠ none ↔
      (is_english_or_russian (x.title.getD []) = true ∧
        m ≤ calculate_relevance_score (x.title.getD [])
          (x.description.getD []) (x.keywords.getD []))) ∧
    (∀ x y : NewsItem, relevanceStep m x = some y →
      y = { x with relevance_score := some (calculate_relevance_score
        (x.title.getD []) (x.description.getD []) (x.keywords.getD [])) }) ∧
    List.Pairwise (fun a b => scoreKey b ≤ scoreKey a)
      (filter_news_by_relevance l m) ∧
    List.Perm (filter_news_by_relevance l m) (l.filterMap (relevanceStep m)) ∧
    (∀ s : Int,
      (filter_news_by_relevance l m).filter (fun y => scoreKey y == s) =
        (l.filterMap (relevanceStep m)).filter (fun y => scoreKey y == s)) := by
  refine ⟨fun y => mem_filter_news_iff l m y,
    fun x h => relevanceStep_none_of_lang m x h, ?_, ?_, ?_, ?_, ?_⟩
  · intro x
    by_cases hl : is_english_or_russian (x.title.getD []) = false
    · simp [relevanceStep, hl]
    · have hl' : is_english_or_russian (x.title.getD []) = true := by
        simpa using hl
      by_cases hs : m ≤ calculate_relevance_score (x.title.getD [])
          (x.description.getD []) (x.keywords.getD [])
      · simp [relevanceStep, hl', hs]
      · simp [relevanceStep, hl', hs]
  · intro x y h
    simp only [relevanceStep] at h
    split at h
    · exact absurd h (by simp)
    · split at h
      · exact (Option.some.inj h).symm
      · exact absurd h (by simp)
  · exact List.sorted_insertionSort scoreGE _
  · exact List.perm_insertionSort scoreGE _
  · intro s
    exact filter_insertionSort_stable (fun y => scoreKey y == s)
      (fun a b ha hb => by
        have ha' : scoreKey a = s := by simpa using ha
        have hb' : scoreKey b = s := by simpa using hb
        show scoreKey b ≤ scoreKey a
        rw [ha', hb']) _

theorem C8_filter_by_relevance_witness :
    is_english_or_russian
      (({ title := some "ab".toList } : NewsItem).title.getD []) = false ∧
    relevanceStep 10 { title := some "ab".toList } = none :=
  ⟨by decide, (C8_filter_by_relevance [] 10).2.1
    { title := some "ab".toList } (by decide)⟩

theorem header_ne_noNews (t : Text) :
    DIGEST_HEADER_PREFIX ++ t ≠ NO_NEWS_MESSAGE := by
  intro h
  have h1 : DIGEST_HEADER_PREFIX =
      '📰' :: ' ' :: '<' :: "b>AI News Digest — ".toList := by decide
  have h2 : NO_NEWS_MESSAGE =
      '📰' :: ' ' :: '*' ::
        "AI News Digest*\n\nНовостей не найдено за последние 24 часа.".toList := by
    decide
  rw [h1, h2] at h
  simp only [List.cons_append] at h
  injection h with e1 h
  injection h with e2 h
  injection h with e3 h
  exact absurd e3 (by decide)

/-- C1 counterexample: a one-item list truncated by `max_items = 0` becomes
empty, yet the formatter does not return the fixed no-news message (it
returns the bare header), refuting "no news exactly when the input is empty
or truncation leaves it empty". -/
theorem C1_format_digest_counterexample :
    ([({} : NewsItem)].take 0 = ([] : List NewsItem)) ∧
    format_news_for_telegram [{}] 0 "01 January 2025".toList ≠
      NO_NEWS_MESSAGE := by
  exact ⟨rfl, by decide⟩

/-- C1 amended: the formatter returns the fixed no-news message exactly when
its input list is empty; a nonempty input truncated to nothing by
`max_items = 0` instead yields the bare dated header with no item blocks. -/
theorem C1_format_digest_amended (l : List NewsItem) (n : Nat) (d : Text) :
    (format_news_for_telegram l n d = NO_NEWS_MESSAGE ↔ l = []) ∧
    (l ≠ [] → format_news_for_telegram l 0 d =
      DIGEST_HEADER_PREFIX ++ d ++ "</b>\n\n".toList) := by
  constructor
  · constructor
    · intro h
      by_contra hne
      rw [format_news_for_telegram, if_neg hne] at h
      refine header_ne_noNews (d ++ "</b>\n\n".toList ++
        List.intercalate "\n".toList ((l.take n).map formatNewsItem)) ?_
      simpa [List.append_assoc] using h
    · rintro rfl
      rfl
  · intro hne
    rw [format_news_for_telegram, if_neg hne]
    simp [List.intercalate]

theorem C1_format_digest_amended_witness :
    ([({} : NewsItem)] ≠ []) ∧
    format_news_for_telegram [{}] 0 "01 January 2025".toList =
      DIGEST_HEADER_PREFIX ++ "01 January 2025".toList ++ "</b>\n\n".toList :=
  ⟨by decide,
    (C1_format_digest_amended [{}] 0 "01 January 2025".toList).2 (by decide)⟩

/-- C2 (evaluation of the code bug): a batch mixing an item carrying a
timezone-aware timestamp with an item lacking `published_date` survives
dedup and the relevance filter intact, but the secondary date sort of
`process_news` compares the aware timestamp against the naive
`datetime.min` default and raises `TypeError` instead of ordering the batch
with the missing date treated as minimal. -/
theorem C2_process_news_raises :
    remove_duplicates [c2ItemAware, c2ItemNoDate] =
      [c2ItemAware, c2ItemNoDate] ∧
    (filter_news_by_relevance [c2ItemAware, c2ItemNoDate] 10).map scoreKey =
      [30, 20] ∧
    process_news [c2ItemAware, c2ItemNoDate] =
      Except.error
        "TypeError: cannot compare offset-naive and offset-aware datetimes" := by
  refine ⟨by decide, by decide, ?_⟩
  rfl

end AiNews
